import Mathlib

/-!
Verification development for the financial-data-parser core
(src/core/format_parser.py, type_detector.py, data_storage.py).

The Python code is shallowly embedded: strings are Lean `String`s,
Python `Decimal` values are `ℚ` (exact decimals embed exactly; the
non-finite values `Infinity`/`NaN`, which `ℚ` cannot represent, are
modelled as parse failures — no claim depends on them), `datetime.date`
is a validated year/month/day triple, pandas data frames are lists of
rows, and the in-memory SQLite connection is an oracle parameter.
-/

/-- ASCII whitespace, as stripped by Python `str.strip()` and matched by
regex `\s` on ASCII input. -/
def isPyWs (c : Char) : Bool :=
  c = ' ' || c = '\t' || c = '\n' || c = '\r' || c = '\x0b' || c = '\x0c'

/-- Strip leading and trailing whitespace from a character list. -/
def pyStripL (l : List Char) : List Char :=
  ((l.dropWhile isPyWs).reverse.dropWhile isPyWs).reverse

/-- Python `str.strip()`. -/
def pyStrip (s : String) : String := ⟨pyStripL s.data⟩

/-- Numeric value of a digit string (most significant first). -/
def natOfDigits (l : List Char) : Nat :=
  l.foldl (fun a c => a * 10 + (c.toNat - '0'.toNat)) 0

/-- Does the string contain the given character? -/
def strContains (s : String) (c : Char) : Bool := s.data.contains c

/-- Python `s.replace(a, '')` for a one-character pattern. -/
def removeAllChar (s : String) (a : Char) : String :=
  ⟨s.data.filter (fun c => !(c == a))⟩

/-- Python `s.replace(a, b)` for one-character pattern and
replacement. -/
def replaceAllChar (s : String) (a b : Char) : String :=
  ⟨s.data.map (fun c => if c = a then b else c)⟩

/-- Python `str.lower()` on ASCII letters. -/
def lowerStr (s : String) : String := ⟨s.data.map Char.toLower⟩

/-- Character-list variant of `lowerStr`. -/
def mkLower (l : List Char) : String := ⟨l.map Char.toLower⟩

/-- Multiplication of rationals through `mkRat` (definitionally
evaluable; equal to `*` by `qMul_eq`). -/
def qMul (a b : ℚ) : ℚ := mkRat (a.num * b.num) (a.den * b.den)

/-- Subtraction of rationals through `mkRat` (equal to `-` by
`qSub_eq`). -/
def qSub (a b : ℚ) : ℚ := mkRat (a.num * b.den - b.num * a.den) (a.den * b.den)

/-- Python `Decimal(cleaned)` on a finite-number string:
optional surrounding whitespace, optional sign, digits with at most one
dot (at least one digit overall), optional exponent.  Returns `none`
exactly where the constructor raises `InvalidOperation` (the non-finite
spellings `inf`/`nan`, unrepresentable in `ℚ`, are also mapped to
`none`; they cannot reach this function from the cleaned inputs the
parser produces). -/
def pyDecimalParse (s : String) : Option ℚ :=
  let l := pyStripL s.data
  let sl : ℤ × List Char :=
    match l with
    | '+' :: r => (1, r)
    | '-' :: r => (-1, r)
    | r => (1, r)
  let sgn := sl.1
  let intPart := sl.2.takeWhile Char.isDigit
  let l1 := sl.2.dropWhile Char.isDigit
  let fl : List Char × List Char :=
    match l1 with
    | '.' :: r => (r.takeWhile Char.isDigit, r.dropWhile Char.isDigit)
    | r => ([], r)
  let fracPart := fl.1
  let eopt : Option ℤ :=
    match fl.2 with
    | [] => some 0
    | c :: r =>
      if c = 'e' || c = 'E' then
        let er : ℤ × List Char :=
          match r with
          | '+' :: r2 => (1, r2)
          | '-' :: r2 => (-1, r2)
          | r2 => (1, r2)
        let ed := er.2.takeWhile Char.isDigit
        if ed ≠ [] ∧ er.2.dropWhile Char.isDigit = [] then
          some (er.1 * (natOfDigits ed : ℤ))
        else none
      else none
  match eopt with
  | none => none
  | some e =>
    if intPart ++ fracPart = [] then none
    else
      let mantissa : ℤ := sgn * (natOfDigits (intPart ++ fracPart) : ℤ)
      let scale : ℤ := e - (fracPart.length : ℤ)
      if 0 ≤ scale then some (mkRat (mantissa * 10 ^ scale.toNat) 1)
      else some (mkRat mantissa (10 ^ (-scale).toNat))

/-- The character class kept by `re.sub(r'[^\d\.\-+]', '', s)`. -/
def numKeep (c : Char) : Bool := c.isDigit || c = '.' || c = '-' || c = '+'

/-- `re.sub(r'[^\d\.\-+]', '', s)`. -/
def filterNum (s : String) : String := ⟨s.data.filter numKeep⟩

/-- `FormatParser._clean_and_parse_number` (format_parser.py lines
105-128): strip; compute `cleaned` by dropping every character outside
`[\d.+-]`; if `cleaned` contains a dot and the stripped input contains a
comma, re-clean the comma-decimal (European) rewrite of the input;
otherwise if the input contains a comma, drop the commas; finally parse
with `Decimal`. -/
def cleanAndParseNumber (s : String) : Option ℚ :=
  let t := pyStrip s
  if t = "" then none
  else
    let cleaned := filterNum t
    let cleaned2 :=
      if strContains cleaned '.' && strContains t ',' then
        filterNum (replaceAllChar (removeAllChar t '.') ',' '.')
      else if strContains t ',' then
        removeAllChar t ','
      else cleaned
    pyDecimalParse cleaned2

/-- The five currency symbols of the patterns in format_parser.py. -/
def curSyms : List Char := ['€', '$', '₹', '£', '¥']

/-- Full match of the group `[+-]?\d*\.?\d+` as an exact rational. -/
def numTokenVal (l : List Char) : Option ℚ :=
  let sl : ℤ × List Char :=
    match l with
    | '+' :: r => (1, r)
    | '-' :: r => (-1, r)
    | r => (1, r)
  let a := sl.2.takeWhile Char.isDigit
  match sl.2.dropWhile Char.isDigit with
  | [] => if a = [] then none else some ((sl.1 * (natOfDigits a : ℤ) : ℤ) : ℚ)
  | '.' :: r =>
    let b := r.takeWhile Char.isDigit
    if b ≠ [] ∧ r.dropWhile Char.isDigit = [] then
      some (mkRat (sl.1 * (natOfDigits (a ++ b) : ℤ)) (10 ^ b.length))
    else none
  | _ => none

/-- Full match of `^([+-]?\d*\.?\d+)\s*([kmb])$` against the lower-cased
amount string, returning the numeric group and the suffix letter. -/
def matchAbbrev (l : List Char) : Option (ℚ × Char) :=
  match l.reverse with
  | c :: rest =>
    if c = 'k' || c = 'm' || c = 'b' then
      match numTokenVal (rest.dropWhile isPyWs).reverse with
      | some q => some (q, c)
      | none => none
    else none
  | [] => none

/-- Multiplier for an abbreviation suffix (`parse_amount` line 85). -/
def abbrevMult (c : Char) : ℚ :=
  if c = 'k' then mkRat 1000 1
  else if c = 'm' then mkRat 1000000 1
  else mkRat 1000000000 1

/-- `FormatParser.parse_amount` on a string input (format_parser.py
lines 43-103): strip, lower-case; then in order try parentheses
(negate), trailing minus (negate), the k/m/b abbreviation (the source
multiplies in binary floating point before converting back to
`Decimal`; that detour is exact on the decimal fractions the group
pattern admits at the widths the tests use, and is modelled as exact
rational multiplication), currency symbol as first or last character of
the *original-case* string, and finally the generic cleaning fallback. -/
def parseAmount (value : String) : Option ℚ :=
  let original := pyStrip value
  let s := lowerStr original
  let sl := s.data
  if sl.length ≥ 2 ∧ sl.head? = some '(' ∧ sl.getLast? = some ')' then
    (cleanAndParseNumber ⟨(sl.drop 1).dropLast⟩).map (fun q => -q)
  else if sl.getLast? = some '-' then
    (cleanAndParseNumber ⟨sl.dropLast⟩).map (fun q => -q)
  else
    match matchAbbrev sl with
    | some qc => some (qMul qc.1 (abbrevMult qc.2))
    | none =>
      let ol := original.data
      match ol with
      | c :: rest =>
        if curSyms.contains c ∧ rest ≠ [] then
          cleanAndParseNumber ⟨rest⟩
        else if (ol.getLast?.map (curSyms.contains ·)).getD false ∧ ol.length ≥ 2 then
          cleanAndParseNumber ⟨ol.dropLast⟩
        else
          cleanAndParseNumber s
      | [] => cleanAndParseNumber s

/-- Gregorian leap year, as `datetime.date` uses. -/
def isLeap (y : Nat) : Bool := y % 4 = 0 && (y % 100 ≠ 0 || y % 400 = 0)

/-- Days in a month of the proleptic Gregorian calendar. -/
def daysInMonth (y m : Nat) : Nat :=
  if m = 2 then (if isLeap y then 29 else 28)
  else if m = 4 ∨ m = 6 ∨ m = 9 ∨ m = 11 then 30
  else 31

/-- A Python `datetime.date`: a validated year/month/day triple. -/
structure PyDate where
  year : Nat
  month : Nat
  day : Nat
deriving DecidableEq, Repr

/-- The `date(year, month, day)` constructor: `some` on a valid
calendar date with `1 <= year <= 9999`, `none` where Python raises
`ValueError`. -/
def mkDate (y m d : Nat) : Option PyDate :=
  if 1 ≤ y ∧ y ≤ 9999 ∧ 1 ≤ m ∧ m ≤ 12 ∧ 1 ≤ d ∧ d ≤ daysInMonth y m then
    some ⟨y, m, d⟩
  else none

/-- Are all characters ASCII digits? -/
def allDigits (l : List Char) : Bool := l.all Char.isDigit

/-- A run of `lo` to `hi` ASCII digits. -/
def digitGroup (l : List Char) (lo hi : Nat) : Bool :=
  allDigits l && lo ≤ l.length && l.length ≤ hi

/-- The three-letter month table of `FormatParser.month_map`. -/
def monthMap (s : String) : Option Nat :=
  if s = "jan" then some 1 else if s = "feb" then some 2
  else if s = "mar" then some 3 else if s = "apr" then some 4
  else if s = "may" then some 5 else if s = "jun" then some 6
  else if s = "jul" then some 7 else if s = "aug" then some 8
  else if s = "sep" then some 9 else if s = "oct" then some 10
  else if s = "nov" then some 11 else if s = "dec" then some 12
  else none

/-- Full match of `^(\d{1,2})/(\d{1,2})/(\d{4})$` (groups in order). -/
def matchSlashDate (l : List Char) : Option (Nat × Nat × Nat) :=
  match l.splitOn '/' with
  | [p1, p2, p3] =>
    if digitGroup p1 1 2 && digitGroup p2 1 2 && digitGroup p3 4 4 then
      some (natOfDigits p1, natOfDigits p2, natOfDigits p3)
    else none
  | _ => none

/-- Full match of `^(\d{4})-(\d{1,2})-(\d{1,2})$`. -/
def matchIsoDate (l : List Char) : Option (Nat × Nat × Nat) :=
  match l.splitOn '-' with
  | [p1, p2, p3] =>
    if digitGroup p1 4 4 && digitGroup p2 1 2 && digitGroup p3 1 2 then
      some (natOfDigits p1, natOfDigits p2, natOfDigits p3)
    else none
  | _ => none

/-- Full match of `^(\d{1,2})-([A-Za-z]{3})-(\d{4})$`. -/
def matchDMonDate (l : List Char) : Option (Nat × String × Nat) :=
  match l.splitOn '-' with
  | [p1, p2, p3] =>
    if digitGroup p1 1 2 && (p2.all Char.isAlpha && p2.length = 3)
        && digitGroup p3 4 4 then
      some (natOfDigits p1, ⟨p2⟩, natOfDigits p3)
    else none
  | _ => none

/-- Full match of `^([A-Za-z]+) (\d{4})$` (one literal space). -/
def matchMonYearDate (l : List Char) : Option (String × Nat) :=
  match l.splitOn ' ' with
  | [p1, p2] =>
    if p1 ≠ [] && p1.all Char.isAlpha && digitGroup p2 4 4 then
      some (⟨p1⟩, natOfDigits p2)
    else none
  | _ => none

/-- The separator language `\s*[-\s]?\s*`: whitespace containing at most
one dash. -/
def quarterSepOk (l : List Char) : Bool :=
  l.all (fun c => isPyWs c || c = '-') && (l.filter (· = '-')).length ≤ 1

/-- Full match of `^(Q[1-4])\s*[-\s]?\s*(\d{2,4})$`, case-insensitive,
returning the quarter digit and the year group value. -/
def matchQuarterShort (l : List Char) : Option (Nat × Nat) :=
  match l.map Char.toLower with
  | 'q' :: d :: rest =>
    if '1' ≤ d && d ≤ '4' then
      let yr := (rest.reverse.takeWhile Char.isDigit).reverse
      let sep := rest.take (rest.length - yr.length)
      if 2 ≤ yr.length && yr.length ≤ 4 && quarterSepOk sep then
        some (d.toNat - '0'.toNat, natOfDigits yr)
      else none
    else none
  | _ => none

/-- Full match of `^Quarter ([1-4]) (\d{4})$`, case-insensitive. -/
def matchQuarterFull (l : List Char) : Option (Nat × Nat) :=
  let lw := l.map Char.toLower
  if lw.take 8 = "quarter ".data then
    match lw.drop 8 with
    | d :: ' ' :: yr =>
      if '1' ≤ d && d ≤ '4' && digitGroup yr 4 4 then
        some (d.toNat - '0'.toNat, natOfDigits yr)
      else none
    | _ => none
  else none

/-- Patterns after the slash pattern of `parse_date`, in source order;
a pattern whose `date(...)` construction fails falls through to the
next one, mirroring the per-pattern `try/except` blocks. -/
def parseDateTail (s : List Char) : Option PyDate :=
  let step6 : Option PyDate :=
    match matchQuarterFull s with
    | some qy => mkDate qy.2 ((qy.1 - 1) * 3 + 1) 1
    | none => none
  let step5 : Option PyDate :=
    match matchQuarterShort s with
    | some qy =>
      let year := if 10 ≤ qy.2 ∧ qy.2 ≤ 99 then
          (if qy.2 < 50 then qy.2 + 2000 else qy.2 + 1900) else qy.2
      match mkDate year ((qy.1 - 1) * 3 + 1) 1 with
      | some d => some d
      | none => step6
    | none => step6
  let step4 : Option PyDate :=
    match matchMonYearDate s with
    | some my =>
      match monthMap (mkLower (my.1.data.take 3)) with
      | some m =>
        match mkDate my.2 m 1 with
        | some d => some d
        | none => step5
      | none => step5
    | none => step5
  let step3 : Option PyDate :=
    match matchDMonDate s with
    | some dmy =>
      match monthMap (mkLower dmy.2.1.data) with
      | some m =>
        match mkDate dmy.2.2 m dmy.1 with
        | some d => some d
        | none => step4
      | none => step4
    | none => step4
  match matchIsoDate s with
  | some ymd =>
    match mkDate ymd.1 ymd.2.1 ymd.2.2 with
    | some d => some d
    | none => step3
  | none => step3

/-- `FormatParser.parse_date` on a string input (format_parser.py lines
130-229).  The slash pattern binds `month` to the first group and `day`
to the second; the source's day-first heuristic (`if day > 12`) returns
`date(year, month, day)` in both branches, so it is behaviourally
inert — an invalid month simply falls through to the later patterns. -/
def parseDate (value : String) : Option PyDate :=
  let s := pyStripL value.data
  match matchSlashDate s with
  | some mdy =>
    let month := mdy.1
    let day := mdy.2.1
    let year := mdy.2.2
    match (if day > 12 then mkDate year month day else mkDate year month day) with
    | some d => some d
    | none => parseDateTail s
  | none => parseDateTail s

/-- Column semantic types as the metadata dictionaries spell them
(`'Date' | 'Number' | 'String'`). -/
inductive CType where
  | date
  | number
  | string
deriving DecidableEq, Repr

/-- Day count of a proleptic Gregorian date relative to 1970-01-01
(Howard Hinnant's `days_from_civil`). -/
def daysFromCivil (y : ℤ) (m d : Nat) : ℤ :=
  let yy := if m ≤ 2 then y - 1 else y
  let era := (if 0 ≤ yy then yy else yy - 399) / 400
  let yoe := (yy - era * 400).toNat
  let mp := (m + 9) % 12
  let doy := (153 * mp + 2) / 5 + d - 1
  let doe := yoe * 365 + yoe / 4 - yoe / 100 + doy
  era * 146097 + (doe : ℤ) - 719468

/-- Inverse of `daysFromCivil` (`civil_from_days`): the calendar date of
a day count. -/
def civilFromDays (z0 : ℤ) : ℤ × Nat × Nat :=
  let z := z0 + 719468
  let era := (if 0 ≤ z then z else z - 146096) / 146097
  let doe := (z - era * 146097).toNat
  let yoe := (doe - doe / 1460 + doe / 36524 - doe / 146096) / 365
  let y := (yoe : ℤ) + era * 400
  let doy := doe - (365 * yoe + yoe / 4 - yoe / 100)
  let mp := (5 * doy + 2) / 153
  let d := doy - (153 * mp + 2) / 5 + 1
  let m := if mp < 10 then mp + 3 else mp - 9
  (if m ≤ 2 then y + 1 else y, m, d)

/-- The Excel-serial branch of `detect_date_format` (type_detector.py
lines 103-113): serial in `1..2958465`, added to the 1899-12-30 epoch
with `pd.Timedelta`, accepted when the year lands in `1900..9999`.
The addition produces a pandas `Timestamp`, which overflows past
2262-04-11; the bare `except` swallows that overflow, so large serials
simply fail to match. -/
def excelSerialOk (serial : Nat) : Bool :=
  if 1 ≤ serial ∧ serial ≤ 2958465 then
    let dn := daysFromCivil 1899 12 30 + serial
    if dn ≤ daysFromCivil 2262 4 11 then
      let y := (civilFromDays dn).1
      1900 ≤ y ∧ y ≤ 9999
    else false
  else false

/-- Lower-case three-letter month abbreviations, as `%b` accepts. -/
def monAbbrevs : List String :=
  ["jan", "feb", "mar", "apr", "may", "jun",
   "jul", "aug", "sep", "oct", "nov", "dec"]

/-- Lower-case full month names, as `%B` accepts. -/
def monFullNames : List String :=
  ["january", "february", "march", "april", "may", "june", "july",
   "august", "september", "october", "november", "december"]

/-- Detector pattern `^\d{1,2}/\d{1,2}/\d{4}$`. -/
def dpSlash (l : List Char) : Bool := (matchSlashDate l).isSome

/-- Detector pattern `^\d{4}-\d{2}-\d{2}$` (fixed two-digit fields). -/
def dpIso (l : List Char) : Bool :=
  match l.splitOn '-' with
  | [p1, p2, p3] => digitGroup p1 4 4 && digitGroup p2 2 2 && digitGroup p3 2 2
  | _ => false

/-- Detector pattern `^\d{1,2}-[A-Z]{3}-\d{4}$` (case-insensitive). -/
def dpDMon (l : List Char) : Bool := (matchDMonDate l).isSome

/-- Detector pattern `^(Jan|...|Dec)[ -]\d{4}$` on the lower-cased
value. -/
def dpMonAbbrevYear (lw : List Char) : Bool :=
  match lw with
  | a :: b :: c :: sep :: rest =>
    monAbbrevs.contains ⟨[a, b, c]⟩ && (sep = ' ' || sep = '-')
      && digitGroup rest 4 4
  | _ => false

/-- Detector pattern `^(January|...|December) \d{4}$` on the lower-cased
value. -/
def dpMonFullYear (lw : List Char) : Bool :=
  monFullNames.any (fun nm =>
    lw.take nm.length = nm.data
      && (match lw.drop nm.length with
          | ' ' :: rest => digitGroup rest 4 4
          | _ => false))

/-- Detector pattern `^Q[1-4] ?[-\s]?[0-9]{2,4}$` on the lower-cased
value: separator is an optional space then an optional dash or
whitespace character. -/
def dpQuarterShort (lw : List Char) : Bool :=
  match lw with
  | 'q' :: d :: rest =>
    ('1' ≤ d && d ≤ '4') &&
      (let yr := (rest.reverse.takeWhile Char.isDigit).reverse
       let sep := rest.take (rest.length - yr.length)
       (2 ≤ yr.length && yr.length ≤ 4) &&
         (sep = [] ||
          (match sep with
           | [c] => c = ' ' || c = '-' || isPyWs c
           | [' ', c] => c = '-' || isPyWs c
           | _ => false)))
  | _ => false

/-- Detector pattern `^Quarter [1-4] \d{4}$` (case-insensitive). -/
def dpQuarterFull (l : List Char) : Bool := (matchQuarterFull l).isSome

/-- The `%m` field of `strptime`: one or two digits with value 1..12. -/
def spMonth (l : List Char) : Bool :=
  digitGroup l 1 2 && 1 ≤ natOfDigits l && natOfDigits l ≤ 12

/-- The `%d` field of `strptime`: one or two digits with value 1..31. -/
def spDay (l : List Char) : Bool :=
  digitGroup l 1 2 && 1 ≤ natOfDigits l && natOfDigits l ≤ 31

/-- `strptime(value, fmt)` success for the slash formats `%m/%d/%Y` and
`%d/%m/%Y` (the boolean argument picks day-first); the built
`datetime` must be a valid calendar date. -/
def spSlash (dayFirst : Bool) (l : List Char) : Bool :=
  match l.splitOn '/' with
  | [p1, p2, p3] =>
    let m := if dayFirst then p2 else p1
    let d := if dayFirst then p1 else p2
    spMonth m && spDay d && digitGroup p3 4 4
      && (mkDate (natOfDigits p3) (natOfDigits m) (natOfDigits d)).isSome
  | _ => false

/-- `strptime(value, '%Y-%m-%d')` success. -/
def spIso (l : List Char) : Bool :=
  match l.splitOn '-' with
  | [p1, p2, p3] =>
    digitGroup p1 4 4 && spMonth p2 && spDay p3
      && (mkDate (natOfDigits p1) (natOfDigits p2) (natOfDigits p3)).isSome
  | _ => false

/-- `strptime(value, '%d-%b-%Y')` success. -/
def spDMon (l : List Char) : Bool :=
  match l.splitOn '-' with
  | [p1, p2, p3] =>
    spDay p1 && monAbbrevs.contains (mkLower p2) && digitGroup p3 4 4
      && (match monthMap (mkLower p2) with
          | some m => (mkDate (natOfDigits p3) m (natOfDigits p1)).isSome
          | none => false)
  | _ => false

/-- `strptime(value, '%b %Y')` / `'%B %Y'` success: a month token, a
nonempty whitespace run (a literal space in the format matches `\s+`),
and a four-digit year of a constructible date. -/
def spMonYear (names : List String) (l : List Char) : Bool :=
  let t1 := l.takeWhile (fun c => !isPyWs c)
  let rest := l.dropWhile (fun c => !isPyWs c)
  let ws1 := rest.takeWhile isPyWs
  let t2 := rest.dropWhile isPyWs
  t1 ≠ [] && ws1 ≠ [] && names.contains (mkLower t1)
    && digitGroup t2 4 4 && 1 ≤ natOfDigits t2

/-- `DataTypeDetector.detect_date_format` (type_detector.py lines
95-137): returns the format hint on a match, `none` otherwise. -/
def detectDateFormat (value : String) : Option String :=
  let v := pyStripL value.data
  if v ≠ [] && allDigits v && excelSerialOk (natOfDigits v) then
    some "ExcelSerial"
  else
    let lw := v.map Char.toLower
    if dpSlash v || dpIso v || dpDMon v || dpMonAbbrevYear lw
        || dpMonFullYear lw || dpQuarterShort lw || dpQuarterFull v then
      some "PatternMatch"
    else if spSlash false v then some "MM/DD/YYYY"
    else if spSlash true v then some "DD/MM/YYYY"
    else if spIso v then some "YYYY-MM-DD"
    else if spDMon v then some "DD-MON-YYYY"
    else if spMonYear monAbbrevs v then some "MON YYYY"
    else if spMonYear monFullNames v then some "MONTH YYYY"
    else none

/-- Full match of the currency group `[ \d,]+\.?\d*`: a nonempty run of
spaces/digits/commas, then an optional dot followed by digits. -/
def curBody (l : List Char) : Bool :=
  let pre := l.takeWhile (fun c => c = ' ' || c.isDigit || c = ',')
  match l.drop pre.length with
  | [] => pre ≠ []
  | '.' :: r => pre ≠ [] && r.all Char.isDigit
  | _ => false

/-- The alternation `^[cur](grp)$|^(grp)[cur]$` of the currency pattern
in `detect_number_format`, returning the numeric group. -/
def curGroup (v : List Char) : Option (List Char) :=
  match v with
  | c :: rest =>
    if curSyms.contains c && curBody rest then some rest
    else
      match v.getLast? with
      | some d =>
        if curSyms.contains d && curBody v.dropLast then some v.dropLast
        else none
      | none => none
  | [] => none

/-- The currency-symbol name chain of `detect_number_format` line 191. -/
def curName (v : List Char) : String :=
  if v.contains '€' then "Euro"
  else if v.contains '$' then "USD"
  else if v.contains '₹' then "INR"
  else if v.contains '£' then "GBP"
  else if v.contains '¥' then "JPY"
  else "Other"

/-- `DataTypeDetector.detect_number_format` (type_detector.py lines
139-196): strip+lower; trim non-numeric characters from both ends;
rewrite accounting negatives (parentheses, trailing minus); drop commas
and whitespace; then try the k/m/b abbreviation, a plain `Decimal`
parse, and finally the currency pattern.  Returns the format tag on a
match. -/
def detectNumberFormat (value : String) : Option String :=
  let v := (pyStripL value.data).map Char.toLower
  if v = [] then none
  else
    let cleaned0 :=
      ((v.dropWhile (fun c => !numKeep c)).reverse.dropWhile
        (fun c => !numKeep c)).reverse
    if cleaned0 = [] then none
    else
      let cleaned :=
        if v.head? = some '(' && v.getLast? = some ')' then
          '-' :: cleaned0.filter numKeep
        else if v.getLast? = some '-' then
          '-' :: v.dropLast.filter numKeep
        else cleaned0
      let numStr := cleaned.filter (fun c => !(c = ',' || isPyWs c))
      match matchAbbrev numStr with
      | some qc => some ("Abbreviated-" ++ ⟨[qc.2.toUpper]⟩)
      | none =>
        if (pyDecimalParse ⟨numStr⟩).isSome then some "Decimal"
        else
          match curGroup v with
          | some grp =>
            let numPart := grp.filter (fun c => !(c = ',' || isPyWs c))
            if (pyDecimalParse ⟨numPart⟩).isSome then
              some ("Currency-" ++ curName v)
            else none
          | none => none

/-- A raw spreadsheet cell as the detector sees it: the primitive
Python types, null, and a catch-all for the non-primitive types the
sampling loop skips. -/
inductive RawCell where
  | null
  | str (s : String)
  | int (i : ℤ)
  | float (q : ℚ)
  | other
deriving DecidableEq, Repr

/-- Is the cell of one of the primitive types the detector samples? -/
def cellPrimitive : RawCell → Bool
  | RawCell.other => false
  | _ => true

/-- Decimal rendering of a rational whose denominator divides a power
of ten, with trailing zeros of the fraction trimmed; Python floats are
dyadic so their exact values always render this way (the final arm is
unreachable for cells that model actual floats). -/
def ratDecimalStr (q : ℚ) : String :=
  match (List.range 31).find? (fun k => (10 ^ k) % q.den = 0) with
  | some k =>
    let scaled := q.num.natAbs * (10 ^ k / q.den)
    let ds := Nat.toDigits 10 scaled
    let ds := List.replicate (k + 1 - ds.length) '0' ++ ds
    let ip := ds.take (ds.length - k)
    let fp := (ds.drop (ds.length - k)).reverse.dropWhile (· = '0')
    let fps := if fp = [] then "0" else ⟨fp.reverse⟩
    (if q.num < 0 then "-" else "") ++ ⟨ip⟩ ++ "." ++ fps
  | none => toString q.num ++ "/" ++ toString q.den

/-- The string the sampling loop hands to the matchers: `str(val)` for
numbers, `val.strip()` for strings (lines 63-66). -/
def cellStrVal : RawCell → String
  | RawCell.str s => pyStrip s
  | RawCell.int i => toString i
  | RawCell.float q => ratDecimalStr q
  | RawCell.null => "None"
  | RawCell.other => ""

/-- Exact rounding of a rational to three decimal places, ties to
even: the decimal step of CPython `round(x, 3)`, which rounds the
exact value of the double `x` (a dyadic rational is never an exact
three-decimal midpoint, so the tie arm is unreachable there). -/
def roundHalfEven3 (q : ℚ) : ℚ :=
  let x := qMul q (mkRat 1000 1)
  let f : ℤ := Int.fdiv x.num x.den
  let r := qSub x (mkRat f 1)
  let n : ℤ :=
    if r > mkRat 1 2 then f + 1
    else if r < mkRat 1 2 then f
    else if f % 2 = 0 then f else f + 1
  mkRat n 1000

/-- Floor of the base-2 logarithm of `num/den`, both positive (the
search window covers every magnitude the classifier computes). -/
def floorLog2Q (num den : Nat) : ℤ :=
  if den ≤ num then
    (((List.range 200).foldl
      (fun acc k => if den * 2 ^ k ≤ num then k else acc) 0 : ℕ) : ℤ)
  else
    -((((List.range 200).find? (fun k => den ≤ num * 2 ^ k)).getD 0 : ℕ) : ℤ)

/-- Round `num/den` to the nearest integer, ties to even. -/
def roundHalfEvenInt (num den : Nat) : Nat :=
  let q := num / den
  let r := num % den
  if 2 * r > den then q + 1
  else if 2 * r < den then q
  else if q % 2 = 0 then q else q + 1

/-- Round to nearest at 53 significant bits, ties to even: the value an
IEEE-754 double assumes for an exact rational in the normal range (all
values the classifier computes lie there, so overflow and subnormals
need no modelling).  Python's float division and subtraction are
correctly rounded, so each is one application of `fl53` to the exact
result. -/
def fl53 (x : ℚ) : ℚ :=
  if x = 0 then 0
  else
    let num := x.num.natAbs
    let den := x.den
    let t : ℤ := 52 - floorLog2Q num den
    let m := roundHalfEvenInt (num * 2 ^ t.toNat) (den * 2 ^ (-t).toNat)
    let v : ℚ :=
      if 0 ≤ t then mkRat (m : ℤ) (2 ^ t.toNat)
      else mkRat ((m : ℤ) * 2 ^ (-t).toNat) 1
    if x < 0 then -v else v

/-- CPython `round(x, 3)` on a double `x`: the exact value of `x` is
rounded to three decimals and the decimal result is converted back to
the nearest double. -/
def pyRoundFloat3 (x : ℚ) : ℚ := fl53 (roundHalfEven3 x)

/-- The result dictionary of `detect_column_type`. -/
structure DetectResult where
  dtype : CType
  confidence : ℚ
  formatHint : Option String
deriving DecidableEq, Repr

/-- One iteration of the sampling loop of `detect_column_type` (lines
55-81): skip non-primitive values; count a date match (with
precedence), else a number match; record the first format hint. -/
def detStep (acc : Nat × Nat × Option String) (val : RawCell) :
    Nat × Nat × Option String :=
  if !cellPrimitive val then acc
  else
    let sv := cellStrVal val
    match detectDateFormat sv with
    | some fmt => (acc.1 + 1, acc.2.1, acc.2.2 <|> some fmt)
    | none =>
      match detectNumberFormat sv with
      | some fmt => (acc.1, acc.2.1 + 1, acc.2.2 <|> some fmt)
      | none => acc

/-- `DataTypeDetector.detect_column_type` (type_detector.py lines
29-93). -/
def detectColumnType (column : List RawCell) : DetectResult :=
  let nonNull := column.filter (· ≠ RawCell.null)
  if nonNull = [] then ⟨CType.string, 1, some "empty_or_null"⟩
  else
    let sample := nonNull.take 1000
    let st := sample.foldl detStep (0, 0, none)
    let dScore : ℚ := fl53 (mkRat (st.1 : ℤ) sample.length)
    let nScore : ℚ := fl53 (mkRat (st.2.1 : ℤ) sample.length)
    if dScore > fl53 (mkRat 7 10) then
      ⟨CType.date, pyRoundFloat3 dScore, st.2.2⟩
    else if nScore > fl53 (mkRat 7 10) then
      ⟨CType.number, pyRoundFloat3 nScore, st.2.2⟩
    else
      ⟨CType.string,
        pyRoundFloat3 (fl53 (qSub (mkRat 1 1) (max dScore nScore))), none⟩

/-- Does a sampled cell count as a date match? -/
def countsDate (v : RawCell) : Bool :=
  cellPrimitive v && (detectDateFormat (cellStrVal v)).isSome

/-- Does a sampled cell count as a number match?  A cell the date
matcher accepts is counted as a date only. -/
def countsNumber (v : RawCell) : Bool :=
  cellPrimitive v && (detectDateFormat (cellStrVal v)).isNone
    && (detectNumberFormat (cellStrVal v)).isSome

/-- The bounded sample of non-null values the detector scores. -/
def sampleOf (column : List RawCell) : List RawCell :=
  (column.filter (· ≠ RawCell.null)).take 1000

/-- `date_score`: the double quotient of the date-match count by the
sample size (skipped non-primitive values stay in the denominator). -/
def dateScoreOf (column : List RawCell) : ℚ :=
  fl53 (mkRat ((sampleOf column).countP countsDate : ℤ) (sampleOf column).length)

/-- `number_score`: the double quotient of the number-match count by
the sample size. -/
def numberScoreOf (column : List RawCell) : ℚ :=
  fl53 (mkRat ((sampleOf column).countP countsNumber : ℤ) (sampleOf column).length)

/-- A normalized cell value held by the store: a calendar date, an
exact decimal, a text value, or null. -/
inductive Value where
  | vNull
  | vDate (d : PyDate)
  | vNum (q : ℚ)
  | vStr (s : String)
deriving DecidableEq, Repr

/-- Zero-padded two-digit rendering. -/
def pad2 (n : Nat) : String := if n < 10 then "0" ++ toString n else toString n

/-- Zero-padded four-digit rendering. -/
def pad4 (n : Nat) : String :=
  if n < 10 then "000" ++ toString n
  else if n < 100 then "00" ++ toString n
  else if n < 1000 then "0" ++ toString n
  else toString n

/-- Python `str(...)` of a stored cell value (`str(date)` is ISO-8601;
decimals render with their fractional digits). -/
def pyStr : Value → String
  | Value.vStr s => s
  | Value.vDate d => pad4 d.year ++ "-" ++ pad2 d.month ++ "-" ++ pad2 d.day
  | Value.vNum q => if q.den = 1 then toString q.num else ratDecimalStr q
  | Value.vNull => "None"

/-- Pandas elementwise equality of a cell against a scalar: null never
equals anything; otherwise exact value equality (cross-type comparisons
are false). -/
def pandasEq (a b : Value) : Bool :=
  a ≠ Value.vNull && b ≠ Value.vNull && a == b

/-- Semantic order used by range comparisons: numbers compare as
rationals, dates lexicographically; values of different kinds (or
nulls) never compare. -/
def valueLe : Value → Value → Bool
  | Value.vNum a, Value.vNum b => decide (a ≤ b)
  | Value.vDate a, Value.vDate b =>
    decide (a.year < b.year ∨ (a.year = b.year ∧
      (a.month < b.month ∨ (a.month = b.month ∧ a.day ≤ b.day))))
  | _, _ => false

/-- Constructor rank, for the total sort order of the numeric index. -/
def valueRank : Value → Nat
  | Value.vNull => 0
  | Value.vDate _ => 1
  | Value.vNum _ => 2
  | Value.vStr _ => 3

/-- A total order on values: by rank, then by the natural order within
a kind (the source sorts with the Python `<` of the column's values;
this totalization agrees with it on homogeneous numeric columns). -/
def valueKeyLe (a b : Value) : Bool :=
  if valueRank a = valueRank b then
    match a, b with
    | Value.vNum x, Value.vNum y => decide (x ≤ y)
    | Value.vDate x, Value.vDate y =>
      decide (x.year < y.year ∨ (x.year = y.year ∧
        (x.month < y.month ∨ (x.month = y.month ∧ x.day ≤ y.day))))
    | Value.vStr x, Value.vStr y => decide (x < y) || x == y
    | _, _ => true
  else decide (valueRank a < valueRank b)

/-- A parsed dataset: named columns over rows of cells (row identity is
the dense list position, as in a default pandas RangeIndex). -/
structure Frame where
  columns : List String
  rows : List (List Value)
deriving DecidableEq, Repr

/-- The column-type metadata dictionary passed to `add_dataset`. -/
abbrev ColTypes := List (String × CType)

/-- First-match association-list lookup, modelling a Python dict. -/
def alookup (l : List (String × α)) (k : String) : Option α :=
  (l.find? (fun p => p.1 = k)).map (·.2)

/-- The series `df[col]`: the cells of a column in row order (a row too
short, or an unknown column, reads as null). -/
def colCells (f : Frame) (col : String) : List Value :=
  match f.columns.findIdx? (· = col) with
  | some j => f.rows.map (fun row => (row.get? j).getD Value.vNull)
  | none => f.rows.map (fun _ => Value.vNull)

/-- The cell of column `col` at row id `r`. -/
def cellAt (f : Frame) (col : String) (r : Nat) : Value :=
  ((colCells f col).get? r).getD Value.vNull

/-- Is the value a date instance (`isinstance(val, date)`)? -/
def isDateV : Value → Bool
  | Value.vDate _ => true
  | _ => false

/-- Entries of the date index of a column: `(value, row id)` for every
cell that is a date instance (`_create_indexes` lines 92-99); the
Python dict keyed by date is modelled as this pair list, lookup by
filtering. -/
def dateIdxEntries (f : Frame) (col : String) : List (Value × Nat) :=
  (colCells f col).enum.filterMap (fun p =>
    if isDateV p.2 then some (p.2, p.1) else none)

/-- Entries of the category index: `(str(value), row id)` for every
non-null cell (`_create_indexes` lines 109-117). -/
def catIdxEntries (f : Frame) (col : String) : List (String × Nat) :=
  (colCells f col).enum.filterMap (fun p =>
    if p.2 ≠ Value.vNull then some (pyStr p.2, p.1) else none)

/-- Entries of the numeric index: the non-null cells with their row
ids, sorted ascending by value (`df[col].dropna().sort_values()`
retains the original row labels). -/
def numIdxEntries (f : Frame) (col : String) : List (Value × Nat) :=
  (((colCells f col).enum.filterMap (fun p =>
      if p.2 ≠ Value.vNull then some (p.2, p.1) else none)).insertionSort
    (fun a b => valueKeyLe a.1 b.1 = true))

/-- The per-dataset index store built at registration (the pandas
MultiIndex of lines 119-125 is read by no operation and is omitted). -/
structure IndexStore where
  dateColumns : List (String × List (Value × Nat))
  numericColumns : List (String × List (Value × Nat))
  categoryColumns : List (String × List (String × Nat))
deriving DecidableEq, Repr

/-- The empty index store (`self.indexes.get(name, {})` default). -/
def emptyIndexStore : IndexStore := ⟨[], [], []⟩

/-- `FinancialDataStore._create_indexes` (data_storage.py lines
68-127): every Date column gets a date index, every Number column with
at least one non-null value gets a sorted numeric index, every other
column gets a category index. -/
def createIndexes (f : Frame) (ct : ColTypes) : IndexStore :=
  let dateCols := ct.filterMap (fun p => if p.2 = CType.date then some p.1 else none)
  let numericCols := ct.filterMap (fun p => if p.2 = CType.number then some p.1 else none)
  let categoryCols := ct.filterMap (fun p =>
    if p.2 ≠ CType.date ∧ p.2 ≠ CType.number then some p.1 else none)
  { dateColumns := dateCols.map (fun c => (c, dateIdxEntries f c))
    numericColumns := numericCols.filterMap (fun c =>
      if numIdxEntries f c = [] then none else some (c, numIdxEntries f c))
    categoryColumns := categoryCols.map (fun c => (c, catIdxEntries f c)) }

/-- The store state: datasets, their metadata, and their indexes (the
SQLite mirror is reached only through `query_sql`, modelled below with
the backend as an oracle). -/
structure FinancialDataStore where
  data : List (String × Frame)
  metadata : List (String × ColTypes)
  indexes : List (String × IndexStore)

/-- A store with no datasets. -/
def FinancialDataStore.empty : FinancialDataStore := ⟨[], [], []⟩

/-- Dict update: replace the binding of `k` or append a new one. -/
def assocSet (l : List (String × α)) (k : String) (v : α) : List (String × α) :=
  if (alookup l k).isSome then
    l.map (fun p => if p.1 = k then (k, v) else p)
  else l ++ [(k, v)]

/-- `FinancialDataStore.add_dataset` (lines 47-66): store the frame and
metadata and build the indexes (the SQLite load has no effect on the
state modelled here). -/
def addDataset (st : FinancialDataStore) (name : String) (f : Frame)
    (ct : ColTypes) : FinancialDataStore :=
  { data := assocSet st.data name f
    metadata := assocSet st.metadata name ct
    indexes := assocSet st.indexes name (createIndexes f ct) }

/-- The typed errors the store raises (`ValueError` with the
corresponding message in the source). -/
inductive StoreErr where
  | datasetNotFound (name : String)
  | missingColumns (groupBy meas : List String)
deriving DecidableEq, Repr

deriving instance DecidableEq for Except

/-- Row ids under a date-index key (`date_idx.get(value, [])`). -/
def idsForValue (entries : List (Value × Nat)) (v : Value) : List Nat :=
  entries.filterMap (fun p => if p.1 = v then some p.2 else none)

/-- Row ids under a category-index key (`cat_idx.get(str(value), [])`). -/
def idsForKey (entries : List (String × Nat)) (k : String) : List Nat :=
  entries.filterMap (fun p => if p.1 = k then some p.2 else none)

/-- The match set of one filter in `query_by_criteria` (lines 187-201):
date-index lookup for an indexed Date column, category-index lookup
under `str(value)` for an indexed String column, a pandas equality scan
otherwise.  (A column present in the frame but absent from the metadata
would raise `KeyError` in the source; the `CType.string` default below
is never reached when the metadata covers the frame's columns, as every
theorem assumes.) -/
def matchingIds (f : Frame) (ct : ColTypes) (idx : IndexStore)
    (cv : String × Value) : List Nat :=
  let ctyp := (alookup ct cv.1).getD CType.string
  if ctyp = CType.date ∧ (alookup idx.dateColumns cv.1).isSome then
    idsForValue ((alookup idx.dateColumns cv.1).getD []) cv.2
  else if ctyp = CType.string ∧ (alookup idx.categoryColumns cv.1).isSome then
    idsForKey ((alookup idx.categoryColumns cv.1).getD []) (pyStr cv.2)
  else
    (colCells f cv.1).enum.filterMap
      (fun p => if pandasEq p.2 cv.2 then some p.1 else none)

/-- One filter of the loop of `query_by_criteria`: a filter naming an
unknown column is skipped; otherwise the surviving ids are intersected
with the filter's match set. -/
def filterStep (f : Frame) (ct : ColTypes) (idx : IndexStore)
    (acc : List Nat) (cv : String × Value) : List Nat :=
  if cv.1 ∈ f.columns then acc.filter (· ∈ matchingIds f ct idx cv) else acc

/-- `FinancialDataStore.query_by_criteria` (lines 164-207): raise if
the dataset is unregistered; start from all row ids; intersect with
each filter's match set; the surviving ids come out ascending (the
source keeps a Python set and sorts it before materializing; filtering
the ascending full range is extensionally the same ids in the same
order, and the empty-result special case returns the same empty
frame). -/
def queryByCriteria (st : FinancialDataStore) (name : String)
    (filters : List (String × Value)) : Except StoreErr (List Nat) :=
  match alookup st.data name with
  | none => Except.error (StoreErr.datasetNotFound name)
  | some f =>
    Except.ok (filters.foldl
      (filterStep f ((alookup st.metadata name).getD [])
        ((alookup st.indexes name).getD emptyIndexStore))
      (List.range f.rows.length))

/-- The declarative per-column match relation `query_by_criteria`
realizes: date-index lookup compares the cell to the filter value and
requires a date instance; category-index lookup compares `str(...)`
forms of non-null cells; everything else is the pandas equality scan. -/
def rowMatches (f : Frame) (ct : ColTypes) (col : String) (v : Value)
    (r : Nat) : Bool :=
  match alookup ct col with
  | some CType.date => cellAt f col r == v && isDateV v
  | some CType.string =>
    cellAt f col r != Value.vNull && pyStr (cellAt f col r) == pyStr v
  | _ => pandasEq (cellAt f col r) v

/-- `FinancialDataStore.query_sql` (lines 210-225): run the query
against the relational backend (an oracle here); any backend failure is
caught and becomes an empty result. -/
def querySql (backend : String → Except String (List (List Value)))
    (query : String) : List (List Value) :=
  match backend query with
  | Except.ok rows => rows
  | Except.error _ => []

/-- The value `get_dataset_info` returns: the info dictionary, or the
bare empty dict `{}` for an unregistered name. -/
inductive InfoResult where
  | empty
  | info (rows : Nat) (columns : List String) (columnTypes : ColTypes)
      (dateIdxCols numIdxCols catIdxCols : List String)
deriving DecidableEq, Repr

/-- `FinancialDataStore.get_dataset_info` (lines 227-253): returns `{}`
— not an error — when the dataset is unregistered. -/
def getDatasetInfo (st : FinancialDataStore) (name : String) : InfoResult :=
  match alookup st.data name with
  | none => InfoResult.empty
  | some f =>
    let meta := (alookup st.metadata name).getD []
    let idxs := (alookup st.indexes name).getD emptyIndexStore
    InfoResult.info f.rows.length f.columns meta
      (idxs.dateColumns.map (·.1))
      (idxs.numericColumns.map (·.1))
      (idxs.categoryColumns.map (·.1))

/-- One aggregated measure: sum, mean (none on an empty group, where
pandas yields NaN) and non-null count. -/
structure AggCell where
  sum : ℚ
  mean : Option ℚ
  count : Nat
deriving DecidableEq, Repr

/-- `FinancialDataStore.aggregate_data` (lines 260-333): raise if the
dataset is unregistered; raise `MissingColumn` naming every absent
group-by and measure column before any aggregation; keep the measure
columns whose first non-null value is numeric (the source converts
Decimal columns to float and then selects the numeric dtypes); group
the rows whose key has no null (pandas drops null keys) and compute
sum/mean/count per surviving measure.  Group keys are listed in first
appearance order. -/
def aggregateData (st : FinancialDataStore) (name : String)
    (groupBy measures : List String) :
    Except StoreErr (List (List Value × List AggCell)) :=
  match alookup st.data name with
  | none => Except.error (StoreErr.datasetNotFound name)
  | some f =>
    let missingGroup := groupBy.filter (fun c => c ∉ f.columns)
    let missingMeas := measures.filter (fun c => c ∉ f.columns)
    if missingGroup ≠ [] ∨ missingMeas ≠ [] then
      Except.error (StoreErr.missingColumns missingGroup missingMeas)
    else
      let numericMeasures := measures.filter (fun c =>
        match ((colCells f c).filter (· ≠ Value.vNull)).head? with
        | some (Value.vNum _) => true
        | _ => false)
      if numericMeasures = [] then Except.ok []
      else
        let n := f.rows.length
        let keyAt := fun i => groupBy.map (fun c => cellAt f c i)
        let live := (List.range n).filter (fun i => (keyAt i).all (· ≠ Value.vNull))
        let keys := (live.map keyAt).dedup
        Except.ok (keys.map (fun k =>
          let rowsK := live.filter (fun i => keyAt i = k)
          (k, numericMeasures.map (fun c =>
            let vals := rowsK.filterMap (fun i =>
              match cellAt f c i with
              | Value.vNum q => some q
              | _ => none)
            { sum := vals.foldl (· + ·) 0
              mean := if vals.length = 0 then none
                      else some ((vals.foldl (· + ·) 0) / (vals.length : ℚ))
              count := vals.length }))))

/-- Errors of the range-query operation named by the spec (section 6):
`DatasetNotFound`, `UnindexedColumn`. -/
inductive RangeErr where
  | datasetNotFound (name : String)
  | unindexedColumn (col : String)
deriving DecidableEq, Repr

/-- Modelled from the spec: `rangeQuery(name, column, low, high)` is
absent from the source — data_storage.py builds the sorted numeric
index and the date index but exposes only equality lookup over them
(spec section 9 flags exactly this).  Following the spec's words
(sections 4.3 and 6): an inclusive bound lookup against a Number or
Date column's index, returning the ids of the rows whose value lies in
`[low, high]` in ascending order; fails `DatasetNotFound` for an
unregistered name and `UnindexedColumn` for a column without a usable
index. -/
def rangeQuery (st : FinancialDataStore) (name col : String)
    (low high : Value) : Except RangeErr (List Nat) :=
  match alookup st.data name with
  | none => Except.error (RangeErr.datasetNotFound name)
  | some _ =>
    let ct := (alookup st.metadata name).getD []
    let idx := (alookup st.indexes name).getD emptyIndexStore
    match alookup ct col with
    | some CType.number =>
      match alookup idx.numericColumns col with
      | some entries =>
        Except.ok ((entries.filterMap (fun p =>
          if valueLe low p.1 && valueLe p.1 high then some p.2 else none)).insertionSort
            (· ≤ ·))
      | none => Except.error (RangeErr.unindexedColumn col)
    | some CType.date =>
      match alookup idx.dateColumns col with
      | some entries =>
        Except.ok ((entries.filterMap (fun p =>
          if valueLe low p.1 && valueLe p.1 high then some p.2 else none)).insertionSort
            (· ≤ ·))
      | none => Except.error (RangeErr.unindexedColumn col)
    | _ => Except.error (RangeErr.unindexedColumn col)

/-- The three-row sample of spec section 8: Date and Category columns
at row ids 0, 1, 2. -/
def sampleFrame : Frame :=
  { columns := ["Date", "Category"]
    rows :=
      [[Value.vDate ⟨2023, 1, 15⟩, Value.vStr "Revenue"],
       [Value.vDate ⟨2023, 2, 20⟩, Value.vStr "Expense"],
       [Value.vDate ⟨2023, 1, 15⟩, Value.vStr "Revenue"]] }

/-- Column types of the sample dataset. -/
def sampleTypes : ColTypes := [("Date", CType.date), ("Category", CType.string)]

/-- The sample dataset registered in an empty store. -/
def sampleStore : FinancialDataStore :=
  addDataset FinancialDataStore.empty "t" sampleFrame sampleTypes

/-! ### Association-list and index lemmas -/

theorem length_colCells (f : Frame) (col : String) :
    (colCells f col).length = f.rows.length := by
  unfold colCells
  cases f.columns.findIdx? (· = col) <;> simp

theorem mem_enum_colCells (f : Frame) (col : String) (i : Nat) (v : Value) :
    (i, v) ∈ (colCells f col).enum ↔
      i < f.rows.length ∧ cellAt f col i = v := by
  rw [List.mem_enum_iff_getElem?]
  unfold cellAt
  rw [List.get?_eq_getElem?]
  constructor
  · intro h
    rcases List.getElem?_eq_some.1 h with ⟨hlt, _⟩
    refine ⟨by rw [← length_colCells f col]; exact hlt, ?_⟩
    rw [h]
    rfl
  · rintro ⟨hlt, he⟩
    have hlt2 : i < (colCells f col).length := by
      rw [length_colCells f col]; exact hlt
    rw [List.getElem?_eq_getElem hlt2] at he ⊢
    simp only [Option.getD_some] at he
    rw [he]

theorem alookup_nil (k : String) : alookup ([] : List (String × α)) k = none := rfl

theorem alookup_cons (p : String × α) (l : List (String × α)) (k : String) :
    alookup (p :: l) k = if p.1 = k then some p.2 else alookup l k := by
  by_cases h : p.1 = k
  · simp [alookup, List.find?, h]
  · simp [alookup, List.find?, h]

theorem alookup_map_set (l : List (String × α)) (k : String) (v : α)
    (h : (alookup l k).isSome) :
    alookup (l.map (fun p => if p.1 = k then (k, v) else p)) k = some v := by
  induction l with
  | nil => simp [alookup] at h
  | cons p t ih =>
    by_cases hp : p.1 = k
    · simp [List.map_cons, hp, alookup_cons]
    · rw [alookup_cons] at h
      rw [if_neg hp] at h
      simp only [List.map_cons, if_neg hp, alookup_cons, hp, if_false]
      exact ih h

theorem alookup_append_single (l : List (String × α)) (k : String) (v : α)
    (h : alookup l k = none) :
    alookup (l ++ [(k, v)]) k = some v := by
  induction l with
  | nil => simp [alookup_cons]
  | cons p t ih =>
    rw [alookup_cons] at h
    by_cases hp : p.1 = k
    · rw [if_pos hp] at h; exact absurd h (by simp)
    · rw [if_neg hp] at h
      rw [List.cons_append, alookup_cons, if_neg hp]
      exact ih h

theorem alookup_assocSet (l : List (String × α)) (k : String) (v : α) :
    alookup (assocSet l k v) k = some v := by
  unfold assocSet
  by_cases h : (alookup l k).isSome
  · rw [if_pos h]; exact alookup_map_set l k v h
  · rw [if_neg h]
    refine alookup_append_single l k v ?_
    exact Option.not_isSome_iff_eq_none.1 h

theorem alookup_map_graph (xs : List String) (g : String → α) (k : String) :
    alookup (xs.map (fun c => (c, g c))) k =
      if k ∈ xs then some (g k) else none := by
  induction xs with
  | nil => simp [alookup_nil]
  | cons c t ih =>
    by_cases hc : c = k
    · subst hc
      simp [List.map_cons, alookup_cons]
    · rw [List.map_cons, alookup_cons, if_neg hc, ih]
      by_cases hk : k ∈ t
      · rw [if_pos hk, if_pos (List.mem_cons_of_mem c hk)]
      · have hnc : ¬ k ∈ c :: t := by
          rw [List.mem_cons]
          rintro (h1 | h2)
          · exact hc h1.symm
          · exact hk h2
        rw [if_neg hk, if_neg hnc]

theorem alookup_filterMap_guard (xs : List String) (g : String → α)
    (Q : String → Prop) [DecidablePred Q] (k : String) (v : α)
    (h : alookup (xs.filterMap
      (fun c => if Q c then none else some (c, g c))) k = some v) :
    v = g k := by
  induction xs with
  | nil => simp [alookup_nil] at h
  | cons c t ih =>
    rw [List.filterMap_cons] at h
    by_cases hQ : Q c
    · rw [if_pos hQ] at h; exact ih h
    · rw [if_neg hQ] at h
      rw [alookup_cons] at h
      by_cases hc : c = k
      · subst hc
        simp at h
        rw [← h]
      · rw [if_neg hc] at h; exact ih h

theorem mem_filterMap_pick (ct : ColTypes) (k : String) (t : CType)
    (P : CType → Prop) [DecidablePred P]
    (h : alookup ct k = some t) (hP : P t) :
    k ∈ ct.filterMap (fun p => if P p.2 then some p.1 else none) := by
  induction ct with
  | nil => simp [alookup_nil] at h
  | cons p l ih =>
    rw [alookup_cons] at h
    rw [List.filterMap_cons]
    by_cases hp : p.1 = k
    · rw [if_pos hp] at h
      have ht : p.2 = t := by simpa using h
      rw [if_pos (ht ▸ hP)]
      exact hp ▸ List.mem_cons_self p.1 _
    · rw [if_neg hp] at h
      by_cases hPp : P p.2
      · rw [if_pos hPp]; exact List.mem_cons_of_mem _ (ih h)
      · rw [if_neg hPp]; exact ih h

theorem mem_idsForValue (entries : List (Value × Nat)) (v : Value) (i : Nat) :
    i ∈ idsForValue entries v ↔ (v, i) ∈ entries := by
  simp only [idsForValue, List.mem_filterMap]
  constructor
  · rintro ⟨p, hp, he⟩
    by_cases h : p.1 = v
    · rw [if_pos h] at he
      have : p = (v, i) := by
        cases p; cases h; cases he; rfl
      exact this ▸ hp
    · rw [if_neg h] at he; cases he
  · intro hp
    exact ⟨(v, i), hp, by simp⟩

theorem mem_idsForKey (entries : List (String × Nat)) (k : String) (i : Nat) :
    i ∈ idsForKey entries k ↔ (k, i) ∈ entries := by
  simp only [idsForKey, List.mem_filterMap]
  constructor
  · rintro ⟨p, hp, he⟩
    by_cases h : p.1 = k
    · rw [if_pos h] at he
      have : p = (k, i) := by
        cases p; cases h; cases he; rfl
      exact this ▸ hp
    · rw [if_neg h] at he; cases he
  · intro hp
    exact ⟨(k, i), hp, by simp⟩

theorem mem_dateIdxEntries (f : Frame) (col : String) (v : Value) (i : Nat) :
    (v, i) ∈ dateIdxEntries f col ↔
      i < f.rows.length ∧ cellAt f col i = v ∧ isDateV v = true := by
  simp only [dateIdxEntries, List.mem_filterMap]
  constructor
  · rintro ⟨p, hp, he⟩
    by_cases h : isDateV p.2
    · rw [if_pos h] at he
      have hv : p.2 = v ∧ p.1 = i := by
        cases p; cases he; exact ⟨rfl, rfl⟩
      rcases hv with ⟨h1, h2⟩
      have := (mem_enum_colCells f col p.1 p.2).1 (by
        have : p = (p.1, p.2) := rfl
        rw [← this]; exact hp)
      exact ⟨h2 ▸ this.1, by rw [← h2, ← h1]; exact this.2, h1 ▸ h⟩
    · rw [if_neg h] at he; cases he
  · rintro ⟨hlt, hc, hd⟩
    refine ⟨(i, v), (mem_enum_colCells f col i v).2 ⟨hlt, hc⟩, ?_⟩
    rw [if_pos hd]

theorem mem_catIdxEntries (f : Frame) (col : String) (k : String) (i : Nat) :
    (k, i) ∈ catIdxEntries f col ↔
      i < f.rows.length ∧ cellAt f col i ≠ Value.vNull ∧
        pyStr (cellAt f col i) = k := by
  simp only [catIdxEntries, List.mem_filterMap]
  constructor
  · rintro ⟨p, hp, he⟩
    by_cases h : p.2 ≠ Value.vNull
    · rw [if_pos h] at he
      have hv : pyStr p.2 = k ∧ p.1 = i := by
        cases p; cases he; exact ⟨rfl, rfl⟩
      rcases hv with ⟨h1, h2⟩
      have := (mem_enum_colCells f col p.1 p.2).1 (by
        have : p = (p.1, p.2) := rfl
        rw [← this]; exact hp)
      refine ⟨h2 ▸ this.1, ?_, ?_⟩
      · rw [← h2, this.2]; exact h
      · rw [← h2, this.2, h1]
    · rw [if_neg h] at he; cases he
  · rintro ⟨hlt, hn, hs⟩
    refine ⟨(i, cellAt f col i),
      (mem_enum_colCells f col i (cellAt f col i)).2 ⟨hlt, rfl⟩, ?_⟩
    rw [if_pos hn, hs]

theorem mem_numIdxEntries (f : Frame) (col : String) (v : Value) (i : Nat) :
    (v, i) ∈ numIdxEntries f col ↔
      i < f.rows.length ∧ cellAt f col i = v ∧ v ≠ Value.vNull := by
  unfold numIdxEntries
  rw [(List.perm_insertionSort _ _).mem_iff]
  simp only [List.mem_filterMap]
  constructor
  · rintro ⟨p, hp, he⟩
    by_cases h : p.2 ≠ Value.vNull
    · rw [if_pos h] at he
      have hv : p.2 = v ∧ p.1 = i := by
        cases p; cases he; exact ⟨rfl, rfl⟩
      rcases hv with ⟨h1, h2⟩
      have := (mem_enum_colCells f col p.1 p.2).1 (by
        have : p = (p.1, p.2) := rfl
        rw [← this]; exact hp)
      exact ⟨h2 ▸ this.1, by rw [← h2, ← h1]; exact this.2, h1 ▸ h⟩
    · rw [if_neg h] at he; cases he
  · rintro ⟨hlt, hc, hn⟩
    refine ⟨(i, v), (mem_enum_colCells f col i v).2 ⟨hlt, hc⟩, ?_⟩
    rw [if_pos hn]

theorem mem_scanIds (f : Frame) (col : String) (v : Value) (i : Nat) :
    i ∈ (colCells f col).enum.filterMap
        (fun p => if pandasEq p.2 v then some p.1 else none) ↔
      i < f.rows.length ∧ pandasEq (cellAt f col i) v = true := by
  simp only [List.mem_filterMap]
  constructor
  · rintro ⟨p, hp, he⟩
    by_cases h : pandasEq p.2 v
    · rw [if_pos h] at he
      have h2 : p.1 = i := by cases he; rfl
      have := (mem_enum_colCells f col p.1 p.2).1 (by
        have : p = (p.1, p.2) := rfl
        rw [← this]; exact hp)
      exact ⟨h2 ▸ this.1, by rw [← h2, this.2]; exact h⟩
    · rw [if_neg h] at he; cases he
  · rintro ⟨hlt, hm⟩
    refine ⟨(i, cellAt f col i),
      (mem_enum_colCells f col i (cellAt f col i)).2 ⟨hlt, rfl⟩, ?_⟩
    rw [if_pos hm]

theorem mem_matchingIds (f : Frame) (ct : ColTypes) (cv : String × Value)
    (t : CType) (ht : alookup ct cv.1 = some t) (r : Nat) :
    r ∈ matchingIds f ct (createIndexes f ct) cv ↔
      r < f.rows.length ∧ rowMatches f ct cv.1 cv.2 r = true := by
  unfold matchingIds rowMatches
  rw [ht]
  cases t with
  | date =>
    have hmem : cv.1 ∈ ct.filterMap
        (fun p => if p.2 = CType.date then some p.1 else none) :=
      mem_filterMap_pick ct cv.1 CType.date (fun x => x = CType.date) ht rfl
    have hlook : alookup (createIndexes f ct).dateColumns cv.1 =
        some (dateIdxEntries f cv.1) := by
      unfold createIndexes
      rw [alookup_map_graph, if_pos hmem]
    simp only [Option.getD_some, hlook]
    rw [if_pos ⟨trivial, Option.isSome_some⟩]
    rw [mem_idsForValue, mem_dateIdxEntries]
    simp [Bool.and_eq_true, beq_iff_eq, and_assoc]
  | string =>
    have hmem : cv.1 ∈ ct.filterMap
        (fun p => if p.2 ≠ CType.date ∧ p.2 ≠ CType.number
          then some p.1 else none) :=
      mem_filterMap_pick ct cv.1 CType.string
        (fun x => x ≠ CType.date ∧ x ≠ CType.number) ht
        ⟨by simp, by simp⟩
    have hlook : alookup (createIndexes f ct).categoryColumns cv.1 =
        some (catIdxEntries f cv.1) := by
      unfold createIndexes
      rw [alookup_map_graph, if_pos hmem]
    simp only [Option.getD_some, hlook]
    rw [if_neg (by rintro ⟨h1, -⟩; cases h1)]
    rw [if_pos ⟨trivial, Option.isSome_some⟩]
    rw [mem_idsForKey, mem_catIdxEntries]
    simp [Bool.and_eq_true, beq_iff_eq, bne_iff_ne, and_assoc]
  | number =>
    simp only [Option.getD_some]
    rw [if_neg (by rintro ⟨h1, -⟩; cases h1)]
    rw [if_neg (by rintro ⟨h1, -⟩; cases h1)]
    exact mem_scanIds f cv.1 cv.2 r

theorem foldl_filterStep_skip (f : Frame) (ct : ColTypes) (idx : IndexStore)
    (filters : List (String × Value)) (acc : List Nat)
    (h : ∀ cv ∈ filters, cv.1 ∉ f.columns) :
    filters.foldl (filterStep f ct idx) acc = acc := by
  induction filters generalizing acc with
  | nil => rfl
  | cons cv rest ih =>
    rw [List.foldl_cons]
    have hcv := h cv (List.mem_cons_self cv rest)
    have hstep : filterStep f ct idx acc cv = acc := by
      unfold filterStep
      rw [if_neg hcv]
    rw [hstep]
    exact ih acc (fun x hx => h x (List.mem_cons_of_mem cv hx))

theorem mem_foldl_filterStep (f : Frame) (ct : ColTypes) (idx : IndexStore)
    (filters : List (String × Value)) (acc : List Nat) (r : Nat) :
    r ∈ filters.foldl (filterStep f ct idx) acc ↔
      r ∈ acc ∧ ∀ cv ∈ filters, cv.1 ∈ f.columns →
        r ∈ matchingIds f ct idx cv := by
  induction filters generalizing acc with
  | nil => simp
  | cons cv rest ih =>
    rw [List.foldl_cons, ih]
    unfold filterStep
    by_cases hcv : cv.1 ∈ f.columns
    · rw [if_pos hcv]
      simp only [List.mem_filter, List.forall_mem_cons, decide_eq_true_eq]
      constructor
      · rintro ⟨⟨h1, h2⟩, h3⟩
        exact ⟨h1, fun _ => h2, h3⟩
      · rintro ⟨h1, h2, h3⟩
        exact ⟨⟨h1, h2 hcv⟩, h3⟩
    · rw [if_neg hcv]
      simp only [List.forall_mem_cons]
      constructor
      · rintro ⟨h1, h3⟩
        exact ⟨h1, fun hin => absurd hin hcv, h3⟩
      · rintro ⟨h1, -, h3⟩
        exact ⟨h1, h3⟩

theorem sorted_foldl_filterStep (f : Frame) (ct : ColTypes) (idx : IndexStore)
    (filters : List (String × Value)) (acc : List Nat)
    (h : List.Sorted (· < ·) acc) :
    List.Sorted (· < ·) (filters.foldl (filterStep f ct idx) acc) := by
  induction filters generalizing acc with
  | nil => exact h
  | cons cv rest ih =>
    rw [List.foldl_cons]
    refine ih _ ?_
    unfold filterStep
    by_cases hcv : cv.1 ∈ f.columns
    · rw [if_pos hcv]
      exact List.Pairwise.filter _ h
    · rw [if_neg hcv]
      exact h

theorem queryByCriteria_addDataset (st : FinancialDataStore) (name : String)
    (f : Frame) (ct : ColTypes) (filters : List (String × Value)) :
    queryByCriteria (addDataset st name f ct) name filters =
      Except.ok (filters.foldl (filterStep f ct (createIndexes f ct))
        (List.range f.rows.length)) := by
  simp only [queryByCriteria, addDataset, alookup_assocSet, Option.getD_some]

/-- First-wins format hint over a sample segment. -/
def firstHintOf : List RawCell → Option String
  | [] => none
  | v :: rest =>
    (if cellPrimitive v then
        detectDateFormat (cellStrVal v) <|> detectNumberFormat (cellStrVal v)
      else none) <|> firstHintOf rest

theorem foldl_detStep_counts (l : List RawCell) (s : Nat × Nat × Option String) :
    ((l.foldl detStep s).1 = s.1 + l.countP countsDate) ∧
    ((l.foldl detStep s).2.1 = s.2.1 + l.countP countsNumber) := by
  induction l generalizing s with
  | nil => simp
  | cons v rest ih =>
    rw [List.foldl_cons]
    rcases ih (detStep s v) with ⟨h1, h2⟩
    rw [h1, h2, List.countP_cons, List.countP_cons]
    by_cases hp : cellPrimitive v
    · cases hd : detectDateFormat (cellStrVal v) with
      | some fmt =>
        have hstep : detStep s v = (s.1 + 1, s.2.1, s.2.2 <|> some fmt) := by
          simp [detStep, hp, hd]
        have hcd : countsDate v = true := by simp [countsDate, hp, hd]
        have hcn : countsNumber v = false := by simp [countsNumber, hp, hd]
        rw [hstep, hcd, hcn]
        constructor <;> simp <;> try omega
      | none =>
        cases hn : detectNumberFormat (cellStrVal v) with
        | some fmt =>
          have hstep : detStep s v = (s.1, s.2.1 + 1, s.2.2 <|> some fmt) := by
            simp [detStep, hp, hd, hn]
          have hcd : countsDate v = false := by simp [countsDate, hp, hd]
          have hcn : countsNumber v = true := by simp [countsNumber, hp, hd, hn]
          rw [hstep, hcd, hcn]
          constructor <;> simp <;> try omega
        | none =>
          have hstep : detStep s v = s := by
            simp [detStep, hp, hd, hn]
          have hcd : countsDate v = false := by simp [countsDate, hp, hd]
          have hcn : countsNumber v = false := by simp [countsNumber, hp, hd, hn]
          rw [hstep, hcd, hcn]
          constructor <;> simp
    · have hp2 : cellPrimitive v = false := by
        cases hq : cellPrimitive v
        · rfl
        · exact absurd hq hp
      have hstep : detStep s v = s := by simp [detStep, hp2]
      have hcd : countsDate v = false := by simp [countsDate, hp2]
      have hcn : countsNumber v = false := by simp [countsNumber, hp2]
      rw [hstep, hcd, hcn]
      constructor <;> simp

theorem detectColumnType_spec (column : List RawCell)
    (h : column.filter (· ≠ RawCell.null) ≠ []) :
    detectColumnType column =
      (if dateScoreOf column > fl53 (mkRat 7 10) then
        ⟨CType.date, pyRoundFloat3 (dateScoreOf column),
          (((column.filter (· ≠ RawCell.null)).take 1000).foldl
            detStep (0, 0, none)).2.2⟩
       else if numberScoreOf column > fl53 (mkRat 7 10) then
        ⟨CType.number, pyRoundFloat3 (numberScoreOf column),
          (((column.filter (· ≠ RawCell.null)).take 1000).foldl
            detStep (0, 0, none)).2.2⟩
       else ⟨CType.string,
          pyRoundFloat3 (fl53 (qSub (mkRat 1 1)
            (max (dateScoreOf column) (numberScoreOf column)))),
          none⟩) := by
  have hs1 : ((((column.filter (· ≠ RawCell.null)).take 1000).foldl
      detStep (0, 0, none)).1 =
        ((column.filter (· ≠ RawCell.null)).take 1000).countP countsDate) := by
    rw [(foldl_detStep_counts _ _).1]
    exact Nat.zero_add _
  have hs2 : ((((column.filter (· ≠ RawCell.null)).take 1000).foldl
      detStep (0, 0, none)).2.1 =
        ((column.filter (· ≠ RawCell.null)).take 1000).countP countsNumber) := by
    rw [(foldl_detStep_counts _ _).2]
    exact Nat.zero_add _
  simp only [detectColumnType]
  rw [if_neg h]
  unfold dateScoreOf numberScoreOf sampleOf
  rw [hs1, hs2]

/-! ### Concrete columns and datasets for the testable properties -/

/-- Spec section 8 vector: 8 ISO-date strings and 2 unparseable
strings. -/
def specVectorCol : List RawCell :=
  [RawCell.str "2023-01-01", RawCell.str "2023-01-02",
   RawCell.str "2023-01-03", RawCell.str "2023-01-04",
   RawCell.str "2023-01-05", RawCell.str "2023-01-06",
   RawCell.str "2023-01-07", RawCell.str "2023-01-08",
   RawCell.str "qq", RawCell.str "zz"]

/-- Three ISO-date strings and one skipped non-primitive value: the
skipped value still counts in the score denominator. -/
def otherMixCol : List RawCell :=
  [RawCell.str "2023-01-01", RawCell.str "2023-01-02",
   RawCell.str "2023-01-03", RawCell.other]

/-- A column whose Text confidence, 2/3, is not representable in three
decimal places. -/
def roundingCol : List RawCell :=
  [RawCell.str "2024-01-01", RawCell.str "qq", RawCell.str "zz"]

/-- Eighty values with three date matches: the exact Text confidence
77/80 = 0.9625 is a three-decimal tie, but the double the program
rounds lies strictly above it, so `round` returns 0.963, not the
to-even 0.962. -/
def tieCol80 : List RawCell :=
  [RawCell.str "2023-01-01", RawCell.str "2023-01-02",
   RawCell.str "2023-01-03"] ++ List.replicate 77 (RawCell.str "qq")

/-- A dataset with a Number column holding 5, 2, null, 9 at row ids
0..3. -/
def numFrame : Frame :=
  { columns := ["A", "N"]
    rows :=
      [[Value.vStr "x", Value.vNum 5], [Value.vStr "y", Value.vNum 2],
       [Value.vStr "z", Value.vNull], [Value.vStr "w", Value.vNum 9]] }

/-- Column types of `numFrame`. -/
def numTypes : ColTypes := [("A", CType.string), ("N", CType.number)]

/-- `numFrame` registered in an empty store. -/
def numStore : FinancialDataStore :=
  addDataset FinancialDataStore.empty "d" numFrame numTypes

/-- A semantic lower bound that is a number forces the compared cell to
be a number. -/
theorem valueLe_num_right (a : ℚ) (c : Value)
    (h : valueLe (Value.vNum a) c = true) : ∃ q, c = Value.vNum q := by
  cases c with
  | vNum q => exact ⟨q, rfl⟩
  | vNull => simp [valueLe] at h
  | vDate d => simp [valueLe] at h
  | vStr s => simp [valueLe] at h

/-- A semantic lower bound that is a date forces the compared cell to
be a date. -/
theorem valueLe_date_right (a : PyDate) (c : Value)
    (h : valueLe (Value.vDate a) c = true) : ∃ d, c = Value.vDate d := by
  cases c with
  | vDate d => exact ⟨d, rfl⟩
  | vNull => simp [valueLe] at h
  | vNum q => simp [valueLe] at h
  | vStr s => simp [valueLe] at h

/-- Filtering by a predicate that keeps `c` does not change whether a
list contains `c`. -/
theorem contains_filter_of_kept {p : Char → Bool} {c : Char}
    (h : p c = true) (l : List Char) :
    (l.filter p).contains c = l.contains c := by
  induction l with
  | nil => rfl
  | cons x xs ih =>
    rw [List.filter_cons]
    by_cases hx : p x
    · rw [if_pos hx]
      rw [List.contains_cons, List.contains_cons, ih]
    · rw [if_neg hx]
      rw [ih, List.contains_cons]
      have hcx : (c == x) = false := by
        by_cases hq : c = x
        · subst hq; exact absurd h hx
        · simp [hq]
      rw [hcx, Bool.false_or]

/-! ### The claims -/

/-- C1 (code_bug evidence): the spec's amount vectors evaluated on the
embedded `parse_amount`.  The abbreviation vector holds
(`parseAmount "1.5M" = 1500000`), but the generic cleaner treats every
string containing both a dot and a comma as European, so the US-format
vectors fail: `"$1,234.56"` parses to 1.23456 rather than 1234.56 and
`"(2,500.00)"` to -2.5 rather than -2500.00 — contrary to the spec and
to the source's own comments (format_parser.py lines 66 and 107-108). -/
theorem c1_parse_amount_spec_vectors :
    parseAmount "1.5M" = some (1500000 : ℚ) ∧
    parseAmount "$1,234.56" = some (1.23456 : ℚ) ∧
    parseAmount "(2,500.00)" = some (-2.5 : ℚ) ∧
    parseAmount "$1,234.56" ≠ some (1234.56 : ℚ) ∧
    parseAmount "(2,500.00)" ≠ some (-2500 : ℚ) := by
  have h1 : (1500000 : ℚ) = mkRat 1500000 1 := by
    rw [Rat.mkRat_eq_div]; norm_num
  have h2 : (1.23456 : ℚ) = mkRat 123456 100000 := by
    rw [Rat.mkRat_eq_div]; norm_num
  have h3 : (-2.5 : ℚ) = mkRat (-5) 2 := by
    rw [Rat.mkRat_eq_div]; norm_num
  have h4 : (1234.56 : ℚ) = mkRat 30864 25 := by
    rw [Rat.mkRat_eq_div]; norm_num
  have h5 : (-2500 : ℚ) = mkRat (-2500) 1 := by
    rw [Rat.mkRat_eq_div]; norm_num
  rw [h1, h2, h3, h4, h5]
  exact ⟨by decide, by decide, by decide, by decide, by decide⟩

/-- C3 (code_bug evidence): the day-first heuristic of `parse_date` is
inert — both branches construct `date(year, month, day)` with
`month` bound to the first group — so `"25/03/2024"` (first group 25 >
12, second group a valid month) returns no date at all instead of
2024-03-25, while the month-first reading `"03/25/2024"` works. -/
theorem c3_slash_date_day_first_broken :
    parseDate "25/03/2024" = none ∧
    parseDate "03/25/2024" = some ⟨2024, 3, 25⟩ :=
  ⟨by decide, by decide⟩

/-- C4 (amended): `query_by_criteria` and `aggregate_data` fail with
the dataset-not-found error on an unregistered name, but
`get_dataset_info` returns the empty dictionary instead of failing. -/
theorem c4_unregistered_reads (st : FinancialDataStore) (name : String)
    (filters : List (String × Value)) (groupBy measures : List String)
    (h : alookup st.data name = none) :
    queryByCriteria st name filters =
      Except.error (StoreErr.datasetNotFound name) ∧
    aggregateData st name groupBy measures =
      Except.error (StoreErr.datasetNotFound name) ∧
    getDatasetInfo st name = InfoResult.empty := by
  unfold queryByCriteria aggregateData getDatasetInfo
  rw [h]
  exact ⟨rfl, rfl, rfl⟩

/-- C4 (counterexample to the claim as stated): on the unregistered
name "ghost", `get_dataset_info` returns the default empty dictionary
rather than failing, while the other two reads do fail. -/
theorem c4_counterexample :
    getDatasetInfo FinancialDataStore.empty "ghost" = InfoResult.empty ∧
    queryByCriteria FinancialDataStore.empty "ghost" [] =
      Except.error (StoreErr.datasetNotFound "ghost") ∧
    aggregateData FinancialDataStore.empty "ghost" [] [] =
      Except.error (StoreErr.datasetNotFound "ghost") :=
  ⟨rfl, rfl, rfl⟩

/-- C4 witness. -/
theorem c4_witness :
    queryByCriteria FinancialDataStore.empty "g" [] =
      Except.error (StoreErr.datasetNotFound "g") ∧
    aggregateData FinancialDataStore.empty "g" [] [] =
      Except.error (StoreErr.datasetNotFound "g") ∧
    getDatasetInfo FinancialDataStore.empty "g" = InfoResult.empty :=
  c4_unregistered_reads FinancialDataStore.empty "g" [] [] [] rfl

/-- C8: `query_sql` never raises — an `ok` backend result is returned
as is, and every backend failure is swallowed into the empty result. -/
theorem c8_run_query_never_raises :
    (∀ (backend : String → Except String (List (List Value)))
        (q : String) (rows : List (List Value)),
      backend q = Except.ok rows → querySql backend q = rows) ∧
    (∀ (backend : String → Except String (List (List Value)))
        (q : String) (e : String),
      backend q = Except.error e → querySql backend q = []) := by
  constructor
  · intro backend q rows h
    unfold querySql
    rw [h]
  · intro backend q e h
    unfold querySql
    rw [h]

/-- C8 witness. -/
theorem c8_witness :
    querySql (fun _ => Except.error "no such table: ghost") "SELECT 1" = [] :=
  c8_run_query_never_raises.2 (fun _ => Except.error "no such table: ghost")
    "SELECT 1" "no such table: ghost" rfl

/-- C9: on a registered dataset, `aggregate_data` with any absent
group-by or measure column fails with the missing-columns error naming
exactly the absent columns of both lists, and produces no aggregation
output. -/
theorem c9_missing_columns (st : FinancialDataStore) (name : String)
    (groupBy measures : List String) (f : Frame)
    (hf : alookup st.data name = some f)
    (hmiss : ∃ c ∈ groupBy ++ measures, c ∉ f.columns) :
    aggregateData st name groupBy measures =
      Except.error (StoreErr.missingColumns
        (groupBy.filter (fun c => c ∉ f.columns))
        (measures.filter (fun c => c ∉ f.columns))) ∧
    (∀ c, c ∈ groupBy.filter (fun c => c ∉ f.columns) ↔
      c ∈ groupBy ∧ c ∉ f.columns) ∧
    (∀ c, c ∈ measures.filter (fun c => c ∉ f.columns) ↔
      c ∈ measures ∧ c ∉ f.columns) ∧
    ∀ out, aggregateData st name groupBy measures ≠ Except.ok out := by
  have hcond : groupBy.filter (fun c => c ∉ f.columns) ≠ [] ∨
      measures.filter (fun c => c ∉ f.columns) ≠ [] := by
    rcases hmiss with ⟨c, hc, hnc⟩
    rcases List.mem_append.1 hc with h1 | h2
    · left
      intro he
      have hm : c ∈ groupBy.filter (fun c => c ∉ f.columns) :=
        List.mem_filter.2 ⟨h1, by simpa using hnc⟩
      rw [he] at hm
      cases hm
    · right
      intro he
      have hm : c ∈ measures.filter (fun c => c ∉ f.columns) :=
        List.mem_filter.2 ⟨h2, by simpa using hnc⟩
      rw [he] at hm
      cases hm
  have heq : aggregateData st name groupBy measures =
      Except.error (StoreErr.missingColumns
        (groupBy.filter (fun c => c ∉ f.columns))
        (measures.filter (fun c => c ∉ f.columns))) := by
    simp only [aggregateData, hf]
    rw [if_pos hcond]
  refine ⟨heq, ?_, ?_, ?_⟩
  · intro c
    simp [List.mem_filter]
  · intro c
    simp [List.mem_filter]
  · intro out h
    rw [heq] at h
    cases h

/-- C9 witness. -/
theorem c9_witness :
    aggregateData sampleStore "t" ["Category"] ["Nope"] =
      Except.error (StoreErr.missingColumns
        (["Category"].filter (fun c => c ∉ sampleFrame.columns))
        (["Nope"].filter (fun c => c ∉ sampleFrame.columns))) :=
  (c9_missing_columns sampleStore "t" ["Category"] ["Nope"] sampleFrame rfl
    ⟨"Nope", by decide, by decide⟩).1

/-- C10: filters naming columns absent from the dataset are skipped —
they constrain nothing and raise nothing — so a filter mapping of only
unknown columns returns every row. -/
theorem c10_unknown_filters_ignored (st : FinancialDataStore) (name : String)
    (f : Frame) (ct : ColTypes) (filters : List (String × Value))
    (h : ∀ cv ∈ filters, cv.1 ∉ f.columns) :
    queryByCriteria (addDataset st name f ct) name filters =
      Except.ok (List.range f.rows.length) := by
  rw [queryByCriteria_addDataset]
  rw [foldl_filterStep_skip _ _ _ _ _ h]

/-- C10 witness. -/
theorem c10_witness :
    queryByCriteria sampleStore "t" [("Nope", Value.vStr "x")] =
      Except.ok (List.range sampleFrame.rows.length) :=
  c10_unknown_filters_ignored FinancialDataStore.empty "t" sampleFrame
    sampleTypes [("Nope", Value.vStr "x")] (by decide)

/-- `qMul` agrees with rational multiplication. -/
theorem qMul_eq (a b : ℚ) : qMul a b = a * b := by
  unfold qMul
  rw [Rat.mkRat_eq_div]
  conv_rhs => rw [← Rat.num_div_den a, ← Rat.num_div_den b]
  rw [div_mul_div_comm]
  push_cast
  ring

/-- `qSub` agrees with rational subtraction. -/
theorem qSub_eq (a b : ℚ) : qSub a b = a - b := by
  unfold qSub
  rw [Rat.mkRat_eq_div]
  conv_rhs => rw [← Rat.num_div_den a, ← Rat.num_div_den b]
  rw [div_sub_div _ _ (by exact_mod_cast Rat.den_ne_zero a)
    (by exact_mod_cast Rat.den_ne_zero b)]
  push_cast
  ring

/-- The date index of a Date-typed column is always present. -/
theorem dateColumns_lookup (f : Frame) (ct : ColTypes) (col : String)
    (ht : alookup ct col = some CType.date) :
    alookup (createIndexes f ct).dateColumns col =
      some (dateIdxEntries f col) := by
  unfold createIndexes
  rw [alookup_map_graph,
    if_pos (mem_filterMap_pick ct col CType.date (fun x => x = CType.date) ht rfl)]

/-- C5: the separator heuristic of the generic cleaner, exactly as the
spec words it — both separators present: European rewrite; only a
comma: commas stripped; no comma: the kept digits parse unchanged —
together with the European round-trip vector. -/
theorem c5_generic_cleaning :
    (∀ s : String,
      pyStrip s ≠ "" →
      ((strContains (pyStrip s) '.' ∧ strContains (pyStrip s) ',') →
        cleanAndParseNumber s = pyDecimalParse (filterNum
          (replaceAllChar (removeAllChar (pyStrip s) '.') ',' '.'))) ∧
      ((¬ strContains (pyStrip s) '.') ∧ strContains (pyStrip s) ',' →
        cleanAndParseNumber s = pyDecimalParse (removeAllChar (pyStrip s) ',')) ∧
      (¬ strContains (pyStrip s) ',' →
        cleanAndParseNumber s = pyDecimalParse (filterNum (pyStrip s)))) ∧
    parseAmount "1.234,56" = some (1234.56 : ℚ) := by
  constructor
  · intro s hs
    have hdot : strContains (filterNum (pyStrip s)) '.' =
        strContains (pyStrip s) '.' :=
      contains_filter_of_kept (by decide) (pyStrip s).data
    refine ⟨?_, ?_, ?_⟩
    · rintro ⟨h1, h2⟩
      simp only [cleanAndParseNumber]
      rw [if_neg hs]
      rw [if_pos (show (strContains (filterNum (pyStrip s)) '.' &&
          strContains (pyStrip s) ',') = true by
        rw [Bool.and_eq_true, hdot]; exact ⟨h1, h2⟩)]
    · rintro ⟨h1, h2⟩
      simp only [cleanAndParseNumber]
      rw [if_neg hs]
      rw [if_neg (show ¬ (strContains (filterNum (pyStrip s)) '.' &&
          strContains (pyStrip s) ',') = true by
        rw [Bool.and_eq_true, hdot]; rintro ⟨hc, -⟩; exact h1 hc)]
      rw [if_pos h2]
    · intro h1
      simp only [cleanAndParseNumber]
      rw [if_neg hs]
      rw [if_neg (show ¬ (strContains (filterNum (pyStrip s)) '.' &&
          strContains (pyStrip s) ',') = true by
        rw [Bool.and_eq_true]; rintro ⟨-, hc⟩; exact h1 hc)]
      rw [if_neg (show ¬ strContains (pyStrip s) ',' = true from h1)]
  · have h : (1234.56 : ℚ) = mkRat 30864 25 := by
      rw [Rat.mkRat_eq_div]; norm_num
    rw [h]
    decide

/-- C5 witness. -/
theorem c5_witness :
    cleanAndParseNumber "1.234,56" = pyDecimalParse (filterNum
      (replaceAllChar (removeAllChar (pyStrip "1.234,56") '.') ',' '.')) :=
  ((c5_generic_cleaning.1 "1.234,56" (by decide)).1 ⟨by decide, by decide⟩)

/-- C6: `query_by_criteria` on a registered dataset intersects the
per-column match sets — index lookups for typed Date/String columns, an
equality scan otherwise (`rowMatches`) — returns the full row set on an
empty filter mapping, produces ids in ascending order, and on the spec
section 8 sample returns exactly rows 0 and 2. -/
theorem c6_filter_equals_intersection (st : FinancialDataStore) (name : String)
    (f : Frame) (ct : ColTypes) (filters : List (String × Value))
    (hty : ∀ cv ∈ filters, cv.1 ∈ f.columns → (alookup ct cv.1).isSome) :
    queryByCriteria (addDataset st name f ct) name [] =
      Except.ok (List.range f.rows.length) ∧
    (∃ ids, queryByCriteria (addDataset st name f ct) name filters =
        Except.ok ids ∧
      List.Sorted (· < ·) ids ∧
      ∀ r, r ∈ ids ↔ (r < f.rows.length ∧
        ∀ cv ∈ filters, cv.1 ∈ f.columns →
          rowMatches f ct cv.1 cv.2 r = true)) ∧
    queryByCriteria sampleStore "t"
      [("Date", Value.vDate ⟨2023, 1, 15⟩), ("Category", Value.vStr "Revenue")] =
      Except.ok [0, 2] := by
  refine ⟨?_, ?_, by decide⟩
  · rw [queryByCriteria_addDataset]
    rfl
  · refine ⟨filters.foldl (filterStep f ct (createIndexes f ct))
      (List.range f.rows.length), queryByCriteria_addDataset st name f ct filters,
      sorted_foldl_filterStep _ _ _ _ _ (List.pairwise_lt_range _), ?_⟩
    intro r
    rw [mem_foldl_filterStep]
    simp only [List.mem_range]
    constructor
    · rintro ⟨h1, h2⟩
      refine ⟨h1, fun cv hcv hin => ?_⟩
      rcases Option.isSome_iff_exists.1 (hty cv hcv hin) with ⟨t, ht⟩
      exact ((mem_matchingIds f ct cv t ht r).1 (h2 cv hcv hin)).2
    · rintro ⟨h1, h2⟩
      refine ⟨h1, fun cv hcv hin => ?_⟩
      rcases Option.isSome_iff_exists.1 (hty cv hcv hin) with ⟨t, ht⟩
      exact (mem_matchingIds f ct cv t ht r).2 ⟨h1, h2 cv hcv hin⟩

/-- C6 witness. -/
theorem c6_witness :
    queryByCriteria sampleStore "t"
      [("Date", Value.vDate ⟨2023, 1, 15⟩), ("Category", Value.vStr "Revenue")] =
      Except.ok [0, 2] :=
  (c6_filter_equals_intersection FinancialDataStore.empty "t" sampleFrame
    sampleTypes [("Date", Value.vDate ⟨2023, 1, 15⟩),
      ("Category", Value.vStr "Revenue")] (by decide)).2.2

/-- C7 (amended): for every column with a non-null value, the
classifier returns Date exactly when the date score exceeds the double
`0.7`, else Number exactly when the number score exceeds it, else Text
whose confidence is `round(1 - max(date_score, number_score), 3)`, all
in the program's IEEE-754 double arithmetic (`fl53` is one correctly
rounded operation; `pyRoundFloat3` is CPython's correctly rounded
three-decimal rounding of the double); the scores divide the match
counts (`countsDate`, `countsNumber` — a value matching both matchers
counts only as a date) by the sample length, which retains skipped
non-primitive values.  Concretely: the spec section 8 vector
classifies as Date with confidence the double 0.8; a column of three
dates plus one skipped non-primitive scores 3/4; and on the 80-value
tie column the confidence is the double 0.963, following the float
above the exact tie 0.9625. -/
theorem c7_classifier_decision (column : List RawCell)
    (h : column.filter (· ≠ RawCell.null) ≠ []) :
    ((detectColumnType column).dtype =
      if dateScoreOf column > fl53 (mkRat 7 10) then CType.date
      else if numberScoreOf column > fl53 (mkRat 7 10) then CType.number
      else CType.string) ∧
    (¬ dateScoreOf column > fl53 (mkRat 7 10) →
      ¬ numberScoreOf column > fl53 (mkRat 7 10) →
      (detectColumnType column).confidence =
        pyRoundFloat3 (fl53
          (1 - max (dateScoreOf column) (numberScoreOf column)))) ∧
    detectColumnType specVectorCol =
      ⟨CType.date, fl53 (mkRat 8 10), some "PatternMatch"⟩ ∧
    fl53 (mkRat 8 10) = fl53 (0.8 : ℚ) ∧
    detectColumnType otherMixCol =
      ⟨CType.date, fl53 (mkRat 3 4), some "PatternMatch"⟩ ∧
    detectColumnType tieCol80 =
      ⟨CType.string, fl53 (mkRat 963 1000), none⟩ := by
  have hspec := detectColumnType_spec column h
  refine ⟨?_, ?_, by decide,
    by rw [show (mkRat 8 10 : ℚ) = (0.8 : ℚ) from by
      rw [Rat.mkRat_eq_div]; norm_num],
    by decide, by decide⟩
  · rw [hspec]
    split_ifs <;> rfl
  · intro h1 h2
    rw [hspec, if_neg h1, if_neg h2]
    show pyRoundFloat3 (fl53 (qSub (mkRat 1 1)
        (max (dateScoreOf column) (numberScoreOf column)))) =
      pyRoundFloat3 (fl53
        (1 - max (dateScoreOf column) (numberScoreOf column)))
    rw [qSub_eq]
    norm_num [Rat.mkRat_eq_div]

/-- C7 (counterexample to the claim as stated): a three-value column
with one date match gets Text confidence `round(1.0 - 1/3, 3)`, the
double 0.667, which is not equal to `1 - max(date_score,
number_score)` (and a fortiori not to the exact 2/3). -/
theorem c7_counterexample :
    detectColumnType roundingCol =
      ⟨CType.string, fl53 (mkRat 667 1000), none⟩ ∧
    dateScoreOf roundingCol = fl53 (mkRat 1 3) ∧
    numberScoreOf roundingCol = fl53 (mkRat 0 1) ∧
    (detectColumnType roundingCol).confidence ≠
      1 - max (dateScoreOf roundingCol) (numberScoreOf roundingCol) := by
  have h1 : detectColumnType roundingCol =
      ⟨CType.string, fl53 (mkRat 667 1000), none⟩ := by decide
  have h2 : dateScoreOf roundingCol = fl53 (mkRat 1 3) := by decide
  have h3 : numberScoreOf roundingCol = fl53 (mkRat 0 1) := by decide
  refine ⟨h1, h2, h3, ?_⟩
  rw [h1, h2, h3]
  show fl53 (mkRat 667 1000) ≠
    1 - max (fl53 (mkRat 1 3)) (fl53 (mkRat 0 1))
  have hb : (1 : ℚ) - max (fl53 (mkRat 1 3)) (fl53 (mkRat 0 1)) =
      qSub (mkRat 1 1) (max (fl53 (mkRat 1 3)) (fl53 (mkRat 0 1))) := by
    rw [qSub_eq]
    norm_num [Rat.mkRat_eq_div]
  rw [hb]
  decide

/-- C7 witness. -/
theorem c7_witness :
    detectColumnType specVectorCol =
      ⟨CType.date, fl53 (mkRat 8 10), some "PatternMatch"⟩ :=
  (c7_classifier_decision specVectorCol (by decide)).2.2.1

/-- C2 (modelled from the spec, which requires the operation the
source never exposes): for a registered dataset and a Number or Date
column with an index, `rangeQuery` succeeds and returns exactly the
row ids whose cell value lies in the inclusive `[low, high]` range, in
ascending order. -/
theorem c2_range_query_inclusive (st : FinancialDataStore) (name col : String)
    (f : Frame) (ct : ColTypes) (low high : Value)
    (hb : (alookup ct col = some CType.number ∧ (∃ a, low = Value.vNum a) ∧
            (∃ b, high = Value.vNum b)) ∨
          (alookup ct col = some CType.date ∧ (∃ a, low = Value.vDate a) ∧
            (∃ b, high = Value.vDate b)))
    (hidx : alookup ct col = some CType.number →
      alookup (createIndexes f ct).numericColumns col ≠ none) :
    ∃ ids, rangeQuery (addDataset st name f ct) name col low high =
        Except.ok ids ∧
      List.Sorted (· ≤ ·) ids ∧
      ∀ r, r ∈ ids ↔ (r < f.rows.length ∧
        valueLe low (cellAt f col r) = true ∧
        valueLe (cellAt f col r) high = true) := by
  rcases hb with ⟨ht, ⟨a, hla⟩, ⟨b, hhb⟩⟩ | ⟨ht, ⟨a, hla⟩, ⟨b, hhb⟩⟩
  · cases hE : alookup (createIndexes f ct).numericColumns col with
    | none => exact absurd hE (hidx ht)
    | some entries =>
      have hent : entries = numIdxEntries f col :=
        alookup_filterMap_guard _ _ (fun c => numIdxEntries f c = []) _ _ hE
      subst hent
      refine ⟨((numIdxEntries f col).filterMap (fun p =>
          if valueLe low p.1 && valueLe p.1 high then some p.2 else
            none)).insertionSort (· ≤ ·), ?_, ?_, ?_⟩
      · simp only [rangeQuery, addDataset, alookup_assocSet,
          Option.getD_some, ht, hE]
      · exact List.sorted_insertionSort _ _
      · intro r
        rw [(List.perm_insertionSort _ _).mem_iff]
        simp only [List.mem_filterMap]
        constructor
        · rintro ⟨p, hp, he⟩
          by_cases hc : (valueLe low p.1 && valueLe p.1 high) = true
          · rw [if_pos hc] at he
            have hr : p.2 = r := by cases he; rfl
            have hmem := (mem_numIdxEntries f col p.1 p.2).1 (by
              have hpp : p = (p.1, p.2) := rfl
              rw [← hpp]; exact hp)
            rw [Bool.and_eq_true] at hc
            exact ⟨hr ▸ hmem.1, by rw [← hr, hmem.2.1]; exact hc.1,
              by rw [← hr, hmem.2.1]; exact hc.2⟩
          · rw [if_neg hc] at he
            cases he
        · rintro ⟨hr, h1, h2⟩
          have hnn : cellAt f col r ≠ Value.vNull := by
            rcases valueLe_num_right a _ (hla ▸ h1) with ⟨q, hq⟩
            rw [hq]
            intro hcon
            cases hcon
          refine ⟨(cellAt f col r, r),
            (mem_numIdxEntries f col _ r).2 ⟨hr, rfl, hnn⟩, ?_⟩
          rw [if_pos (by rw [Bool.and_eq_true]; exact ⟨h1, h2⟩)]
  · have hE : alookup (createIndexes f ct).dateColumns col =
        some (dateIdxEntries f col) := dateColumns_lookup f ct col ht
    refine ⟨((dateIdxEntries f col).filterMap (fun p =>
        if valueLe low p.1 && valueLe p.1 high then some p.2 else
          none)).insertionSort (· ≤ ·), ?_, ?_, ?_⟩
    · simp only [rangeQuery, addDataset, alookup_assocSet,
        Option.getD_some, ht, hE]
    · exact List.sorted_insertionSort _ _
    · intro r
      rw [(List.perm_insertionSort _ _).mem_iff]
      simp only [List.mem_filterMap]
      constructor
      · rintro ⟨p, hp, he⟩
        by_cases hc : (valueLe low p.1 && valueLe p.1 high) = true
        · rw [if_pos hc] at he
          have hr : p.2 = r := by cases he; rfl
          have hmem := (mem_dateIdxEntries f col p.1 p.2).1 (by
            have hpp : p = (p.1, p.2) := rfl
            rw [← hpp]; exact hp)
          rw [Bool.and_eq_true] at hc
          exact ⟨hr ▸ hmem.1, by rw [← hr, hmem.2.1]; exact hc.1,
            by rw [← hr, hmem.2.1]; exact hc.2⟩
        · rw [if_neg hc] at he
          cases he
      · rintro ⟨hr, h1, h2⟩
        have hd : isDateV (cellAt f col r) = true := by
          rcases valueLe_date_right a _ (hla ▸ h1) with ⟨d, hq⟩
          rw [hq]
          rfl
        refine ⟨(cellAt f col r, r),
          (mem_dateIdxEntries f col _ r).2 ⟨hr, rfl, hd⟩, ?_⟩
        rw [if_pos (by rw [Bool.and_eq_true]; exact ⟨h1, h2⟩)]

/-- C2 witness: the inclusive range `[2, 5]` over the Number column of
`numFrame` picks exactly rows 0 and 1. -/
theorem c2_witness :
    (∃ ids, rangeQuery numStore "d" "N" (Value.vNum 2) (Value.vNum 5) =
        Except.ok ids ∧
      List.Sorted (· ≤ ·) ids ∧
      ∀ r, r ∈ ids ↔ (r < numFrame.rows.length ∧
        valueLe (Value.vNum 2) (cellAt numFrame "N" r) = true ∧
        valueLe (cellAt numFrame "N" r) (Value.vNum 5) = true)) ∧
    rangeQuery numStore "d" "N" (Value.vNum 2) (Value.vNum 5) =
      Except.ok [0, 1] :=
  ⟨c2_range_query_inclusive FinancialDataStore.empty "d" "N" numFrame numTypes
      (Value.vNum 2) (Value.vNum 5)
      (Or.inl ⟨rfl, ⟨2, rfl⟩, ⟨5, rfl⟩⟩) (fun _ => by decide),
    by decide⟩
